import Mathlib

/-!
Verification of the Bank Reconciliation App's result-processing pipeline.

The development shallowly embeds the sanitization step of `reconcileFiles`
(the map over matched/unmatched collections with `parseAmount` and the
summary recomputation), the review-state operations of
`ReconciliationResults.tsx` (`selectAllUnmatchedBank`/`selectAllUnmatchedLedger`,
`applyBulkStatus`), the dashboard analytics of `Dashboard.tsx`
(`topUnmatched`, the total-variance classification), and the section/row
structure of `generatePdf` in `downloadUtils.ts`.

Amounts are modelled as rationals; a raw amount is `Option ℚ`, with `none`
standing for a missing field or a value whose numeric coercion fails (NaN),
so that `parseAmount` mirrors `Math.abs(parseFloat(val) || 0)`.  A raw
sub-object that may be absent (`bankTransaction` / `ledgerTransaction`
inside a matched pair, the whole `summary`, each top-level collection)
is modelled as an `Option`.  A thrown-and-rethrown exception is modelled
as `Except.error`.
-/

namespace BankRec

/-- A raw transaction-like object as received from the external service:
every field may be absent, and `amount` is `none` when missing or when
numeric coercion would fail. -/
structure RawTransaction where
  date : Option String
  description : Option String
  amount : Option ℚ
  type : Option String
deriving DecidableEq

/-- A raw matched pair: either leg may be absent. -/
structure RawPair where
  bankTransaction : Option RawTransaction
  ledgerTransaction : Option RawTransaction
deriving DecidableEq

/-- The raw summary object: the three pass-through fields, each possibly absent. -/
structure RawSummary where
  ledgerBalance : Option ℚ
  bankBalance : Option ℚ
  asAtDate : Option String
deriving DecidableEq

/-- The raw parsed response: each of the four top-level fields may be absent. -/
structure RawResult where
  summary : Option RawSummary
  matchedTransactions : Option (List RawPair)
  unmatchedBankTransactions : Option (List RawTransaction)
  unmatchedLedgerEntries : Option (List RawTransaction)
deriving DecidableEq

/-- A sanitized transaction.  The non-`amount` fields are spread-copied from
the raw object, so they keep its (possibly absent) values. -/
structure Transaction where
  date : Option String
  description : Option String
  amount : ℚ
  type : Option String
deriving DecidableEq

/-- A sanitized matched pair, `{ bankTransaction, ledgerTransaction }`. -/
structure MatchedPair where
  bankTransaction : Transaction
  ledgerTransaction : Transaction
deriving DecidableEq

/-- The recomputed summary: three pass-through fields plus the six derived
count/total fields. -/
structure Summary where
  ledgerBalance : Option ℚ
  bankBalance : Option ℚ
  asAtDate : Option String
  matchedCount : ℕ
  unmatchedBankCount : ℕ
  unmatchedLedgerCount : ℕ
  matchedTotal : ℚ
  unmatchedBankTotal : ℚ
  unmatchedLedgerTotal : ℚ
deriving DecidableEq

/-- The canonical sanitized result. -/
structure ReconciliationResult where
  summary : Summary
  matchedTransactions : List MatchedPair
  unmatchedBankTransactions : List Transaction
  unmatchedLedgerEntries : List Transaction
deriving DecidableEq

/-- `Math.abs`, written with an explicit sign test. -/
def absQ (q : ℚ) : ℚ := if q < 0 then -q else q

theorem absQ_eq_abs (q : ℚ) : absQ q = |q| := by
  unfold absQ
  split
  · exact (abs_of_neg (by assumption)).symm
  · exact (abs_of_nonneg (by linarith [not_lt.mp (by assumption)])).symm

/-- `const parseAmount = (val) => Math.abs(parseFloat(val) || 0)`:
a failed coercion (missing field or NaN) is `none` and defaults to `0`;
the absolute value is then taken. -/
def parseAmount (val : Option ℚ) : ℚ := absQ (val.getD 0)

/-- `{ ...t, amount: parseAmount(t.amount) }`: the spread copies every other
field verbatim and overwrites `amount`. -/
def sanitizeTx (t : RawTransaction) : Transaction :=
  { date := t.date, description := t.description,
    amount := parseAmount t.amount, type := t.type }

/-- One element of the `matchedTransactions` map.  The source reads
`p.bankTransaction.amount` and `p.ledgerTransaction.amount` without a guard,
so an absent leg raises a TypeError (modelled as `Except.error`). -/
def sanitizePair (p : RawPair) : Except String MatchedPair :=
  match p.bankTransaction with
  | none => .error "TypeError: cannot read amount of undefined"
  | some b =>
    match p.ledgerTransaction with
    | none => .error "TypeError: cannot read amount of undefined"
    | some l => .ok { bankTransaction := sanitizeTx b, ledgerTransaction := sanitizeTx l }

/-- `(rawResult.matchedTransactions || []).map(...)`: the map stops at the
first thrown TypeError. -/
def sanitizePairs : List RawPair → Except String (List MatchedPair)
  | [] => .ok []
  | p :: ps =>
    match sanitizePair p with
    | .error e => .error e
    | .ok q =>
      match sanitizePairs ps with
      | .error e => .error e
      | .ok qs => .ok (q :: qs)

/-- The sanitization-and-recalculation step of `reconcileFiles` (the part of
the `try` block after `JSON.parse`), with the surrounding `catch` that
rethrows any error as `Reconciliation failed: <cause>`.  Absent collections
default to `[]`; the summary is spread from `rawResult.summary` and the six
derived fields are recomputed; totals use `reduce` (left fold from `0`),
`matchedTotal` summing the bank leg's amount. -/
def sanitize (raw : RawResult) : Except String ReconciliationResult :=
  match sanitizePairs (raw.matchedTransactions.getD []) with
  | .error e => .error ("Reconciliation failed: " ++ e)
  | .ok matched =>
    let unmatchedBank := (raw.unmatchedBankTransactions.getD []).map sanitizeTx
    let unmatchedLedger := (raw.unmatchedLedgerEntries.getD []).map sanitizeTx
    .ok
      { summary :=
          { ledgerBalance := raw.summary.bind (·.ledgerBalance)
            bankBalance := raw.summary.bind (·.bankBalance)
            asAtDate := raw.summary.bind (·.asAtDate)
            matchedCount := matched.length
            unmatchedBankCount := unmatchedBank.length
            unmatchedLedgerCount := unmatchedLedger.length
            matchedTotal := matched.foldl (fun s p => s + p.bankTransaction.amount) 0
            unmatchedBankTotal := unmatchedBank.foldl (fun s t => s + t.amount) 0
            unmatchedLedgerTotal := unmatchedLedger.foldl (fun s t => s + t.amount) 0 }
        matchedTransactions := matched
        unmatchedBankTransactions := unmatchedBank
        unmatchedLedgerEntries := unmatchedLedger }

/-! Review state: `selectAllUnmatchedBank` / `selectAllUnmatchedLedger` and
`applyBulkStatus` from `ReconciliationResults.tsx`.  Both select-all handlers
have the same body over their own selection set and filtered list, so a single
function models them; the filtered list is passed as the list of currently
visible indices. -/

/-- `selectAllUnmatchedBank` / `selectAllUnmatchedLedger`: clears the selection
when `selected.size === filtered.length && filtered.length > 0`, otherwise sets
it to the set of visible indices.  Note the guard compares sizes, not sets. -/
def selectAllVisible (selected : Finset ℕ) (visibleIndices : List ℕ) : Finset ℕ :=
  if selected.card = visibleIndices.length ∧ 0 < visibleIndices.length then ∅
  else visibleIndices.toFinset

/-- A non-default annotation status, as stored in a `StatusMap` entry. -/
inductive TagStatus
  | investigating
  | cleared
  | reviewed
deriving DecidableEq

/-- The status argument of `applyBulkStatus`, which may also be `default`. -/
inductive BulkStatus
  | defaultStatus
  | investigating
  | cleared
  | reviewed
deriving DecidableEq

/-- The `StatusMap` entry a bulk status writes: `default` deletes the entry. -/
def BulkStatus.toTag : BulkStatus → Option TagStatus
  | .defaultStatus => none
  | .investigating => some .investigating
  | .cleared => some .cleared
  | .reviewed => some .reviewed

/-- A `StatusMap` (`Record<number, status>`): absence of an entry is `none`. -/
def StatusMap : Type := ℕ → Option TagStatus

/-- One iteration of the `forEach` in `applyBulkStatus`:
`if (status === 'default') delete next[idx]; else next[idx] = status`. -/
def bulkStep (status : BulkStatus) (next : StatusMap) (idx : ℕ) : StatusMap :=
  fun j => if j = idx then (if status = .defaultStatus then none else status.toTag) else next j

/-- `applyBulkStatus(collection, indices, status)`: folds `bulkStep` over the
selected indices starting from a copy of the current map, then clears the
collection's selection set. -/
def applyBulkStatus (statuses : StatusMap) (selected : List ℕ) (status : BulkStatus) :
    StatusMap × Finset ℕ :=
  (selected.foldl (bulkStep status) statuses, ∅)

/-! Dashboard analytics (`Dashboard.tsx`). -/

/-- The comparator `(a, b) => b.amount - a.amount` as a boolean order:
`a` may precede `b` exactly when `b.amount ≤ a.amount`. -/
def leAmount (a b : Transaction) : Bool := decide (b.amount ≤ a.amount)

/-- `topUnmatched`: concatenate the two unmatched collections, stable-sort by
amount descending, take the first 5. -/
def topUnmatched (bank ledger : List Transaction) : List Transaction :=
  ((bank ++ ledger).mergeSort leAmount).take 5

/-- The Total Variance value shown by the dashboard:
`summary.bankBalance - summary.ledgerBalance`. -/
def totalVariance (bankBalance ledgerBalance : ℚ) : ℚ := bankBalance - ledgerBalance

/-- The dashboard's balanced classification:
`Math.abs(summary.bankBalance - summary.ledgerBalance) < 0.01`. -/
def isBalanced (bankBalance ledgerBalance : ℚ) : Bool :=
  decide (absQ (bankBalance - ledgerBalance) < 1 / 100)

/-! Structured document export (`generatePdf` in `downloadUtils.ts`), modelled
as the list of emitted sections with their title strings and row data. -/

/-- `PdfExportConfig` from `types.ts`. -/
structure PdfExportConfig where
  includeSummary : Bool
  includeMatches : Bool
  includeUnmatchedBank : Bool
  includeUnmatchedLedger : Bool
  onlySelectedItems : Bool
deriving DecidableEq

/-- One emitted section of the generated document. -/
inductive DocSection
  | summarySec (title : String) (s : Summary)
  | matchesSec (title : String) (rows : List MatchedPair)
  | unmatchedBankSec (title : String) (rows : List Transaction)
  | unmatchedLedgerSec (title : String) (rows : List Transaction)
deriving DecidableEq

/-- `list.filter((_, i) => sel.has(i))`: keep the elements whose positional
index in the full list is in the selection set. -/
def selectByIndex (sel : Finset ℕ) (l : List Transaction) : List Transaction :=
  (l.enum.filter (fun p => decide (p.1 ∈ sel))).map Prod.snd

/-- `config.onlySelectedItems && selectedBankIndices ? filter : full` —
the row list of an unmatched section before the emptiness check. -/
def filteredRows (onlySelected : Bool) (sel : Option (Finset ℕ))
    (full : List Transaction) : List Transaction :=
  match onlySelected, sel with
  | true, some s => selectByIndex s full
  | _, _ => full

/-- Block 3 of `generatePdf`: the Executive Summary section. -/
def summarySection (result : ReconciliationResult) (config : PdfExportConfig) :
    List DocSection :=
  if config.includeSummary then
    [DocSection.summarySec "1. Executive Summary" result.summary]
  else []

/-- Block 4 of `generatePdf`: the Verified Matches section, emitted when
configured and non-empty, never selection-filtered. -/
def matchesSection (result : ReconciliationResult) (config : PdfExportConfig) :
    List DocSection :=
  if config.includeMatches ∧ 0 < result.matchedTransactions.length then
    [DocSection.matchesSec
      ("2. Verified Matches (" ++ toString result.matchedTransactions.length ++ ")")
      result.matchedTransactions]
  else []

/-- Block 5 of `generatePdf`: the Unmatched Bank Items section. -/
def bankSection (result : ReconciliationResult) (config : PdfExportConfig)
    (selB : Option (Finset ℕ)) : List DocSection :=
  if config.includeUnmatchedBank then
    if 0 < (filteredRows config.onlySelectedItems selB result.unmatchedBankTransactions).length
    then
      [DocSection.unmatchedBankSec
        ("3. Unmatched Bank Items (" ++
          toString (filteredRows config.onlySelectedItems selB
            result.unmatchedBankTransactions).length ++ ")" ++
          (if config.onlySelectedItems then " [Filtered]" else ""))
        (filteredRows config.onlySelectedItems selB result.unmatchedBankTransactions)]
    else []
  else []

/-- Block 6 of `generatePdf`: the Unmatched Ledger Entries section. -/
def ledgerSection (result : ReconciliationResult) (config : PdfExportConfig)
    (selL : Option (Finset ℕ)) : List DocSection :=
  if config.includeUnmatchedLedger then
    if 0 < (filteredRows config.onlySelectedItems selL result.unmatchedLedgerEntries).length
    then
      [DocSection.unmatchedLedgerSec
        ("4. Unmatched Ledger Entries (" ++
          toString (filteredRows config.onlySelectedItems selL
            result.unmatchedLedgerEntries).length ++ ")" ++
          (if config.onlySelectedItems then " [Filtered]" else ""))
        (filteredRows config.onlySelectedItems selL result.unmatchedLedgerEntries)]
    else []
  else []

/-- The section structure of `generatePdf(result, companyName, config,
selectedBankIndices, selectedLedgerIndices)`: the four blocks in their fixed
order. -/
def generatePdf (result : ReconciliationResult) (config : PdfExportConfig)
    (selectedBankIndices selectedLedgerIndices : Option (Finset ℕ)) : List DocSection :=
  summarySection result config ++ matchesSection result config ++
    bankSection result config selectedBankIndices ++
    ledgerSection result config selectedLedgerIndices

/-! Helper lemmas. -/

/-- Whether an `Except` computation succeeded. -/
def isOk {ε α : Type} : Except ε α → Bool
  | .ok _ => true
  | .error _ => false

theorem isOk_iff_exists {ε α : Type} (x : Except ε α) :
    isOk x = true ↔ ∃ a, x = .ok a := by
  cases x <;> simp [isOk]

theorem foldl_add_map {α : Type} (f : α → ℚ) :
    ∀ (l : List α) (init : ℚ), l.foldl (fun s x => s + f x) init = init + (l.map f).sum
  | [], init => by simp
  | x :: xs, init => by
    simp only [List.foldl_cons, List.map_cons, List.sum_cons]
    rw [foldl_add_map f xs (init + f x)]
    ring

theorem sanitizePair_ok_iff (p : RawPair) (q : MatchedPair) :
    sanitizePair p = .ok q ↔
      ∃ b lt, p.bankTransaction = some b ∧ p.ledgerTransaction = some lt ∧
        q = ⟨sanitizeTx b, sanitizeTx lt⟩ := by
  cases hb : p.bankTransaction with
  | none => simp [sanitizePair, hb]
  | some b =>
    cases hl : p.ledgerTransaction with
    | none => simp [sanitizePair, hb, hl]
    | some lt =>
      simp only [sanitizePair, hb, hl, Except.ok.injEq, Option.some.injEq]
      constructor
      · intro h
        exact ⟨b, lt, rfl, rfl, h.symm⟩
      · rintro ⟨b', lt', hb', hl', hq⟩
        subst hb'; subst hl'; subst hq; rfl

theorem sanitizePairs_ok_forall₂ :
    ∀ {l : List RawPair} {res : List MatchedPair}, sanitizePairs l = .ok res →
      List.Forall₂ (fun p q => ∃ b lt, p.bankTransaction = some b ∧
        p.ledgerTransaction = some lt ∧ q = ⟨sanitizeTx b, sanitizeTx lt⟩) l res := by
  intro l
  induction l with
  | nil =>
    intro res h
    simp only [sanitizePairs, Except.ok.injEq] at h
    subst h
    exact List.Forall₂.nil
  | cons p ps ih =>
    intro res h
    simp only [sanitizePairs] at h
    cases hp : sanitizePair p with
    | error e => rw [hp] at h; exact Except.noConfusion h
    | ok q =>
      rw [hp] at h
      cases hps : sanitizePairs ps with
      | error e => rw [hps] at h; exact Except.noConfusion h
      | ok qs =>
        rw [hps] at h
        simp only [Except.ok.injEq] at h
        subst h
        exact List.Forall₂.cons ((sanitizePair_ok_iff p q).mp hp) (ih hps)

theorem sanitizePairs_isOk_iff (l : List RawPair) :
    isOk (sanitizePairs l) = true ↔
      ∀ p ∈ l, p.bankTransaction.isSome = true ∧ p.ledgerTransaction.isSome = true := by
  induction l with
  | nil => simp [sanitizePairs, isOk]
  | cons p ps ih =>
    simp only [sanitizePairs, List.mem_cons]
    cases hb : p.bankTransaction with
    | none =>
      simp only [sanitizePair, hb, isOk]
      constructor
      · intro h; exact absurd h (by simp)
      · intro h
        have := (h p (Or.inl rfl)).1
        rw [hb] at this
        exact absurd this (by simp)
    | some b =>
      cases hl : p.ledgerTransaction with
      | none =>
        simp only [sanitizePair, hb, hl, isOk]
        constructor
        · intro h; exact absurd h (by simp)
        · intro h
          have := (h p (Or.inl rfl)).2
          rw [hl] at this
          exact absurd this (by simp)
      | some lt =>
        simp only [sanitizePair, hb, hl]
        cases hps : sanitizePairs ps with
        | error e =>
          simp only [isOk]
          rw [hps] at ih
          simp only [isOk] at ih
          constructor
          · intro h; exact absurd h (by simp)
          · intro h
            have : (∀ q ∈ ps, q.bankTransaction.isSome = true ∧
                q.ledgerTransaction.isSome = true) := fun q hq => h q (Or.inr hq)
            exact absurd (ih.mpr this) (by simp)
        | ok qs =>
          simp only [isOk]
          rw [hps] at ih
          simp only [isOk] at ih
          constructor
          · intro _ q hq
            rcases hq with hq | hq
            · subst hq; simp [hb, hl]
            · exact ih.mp trivial q hq
          · intro _; trivial

theorem sanitize_ok_elim {raw : RawResult} {r : ReconciliationResult}
    (h : sanitize raw = .ok r) :
    ∃ matched, sanitizePairs (raw.matchedTransactions.getD []) = .ok matched ∧
      r.matchedTransactions = matched ∧
      r.unmatchedBankTransactions = (raw.unmatchedBankTransactions.getD []).map sanitizeTx ∧
      r.unmatchedLedgerEntries = (raw.unmatchedLedgerEntries.getD []).map sanitizeTx ∧
      r.summary.ledgerBalance = raw.summary.bind (·.ledgerBalance) ∧
      r.summary.bankBalance = raw.summary.bind (·.bankBalance) ∧
      r.summary.asAtDate = raw.summary.bind (·.asAtDate) ∧
      r.summary.matchedCount = matched.length ∧
      r.summary.unmatchedBankCount =
        ((raw.unmatchedBankTransactions.getD []).map sanitizeTx).length ∧
      r.summary.unmatchedLedgerCount =
        ((raw.unmatchedLedgerEntries.getD []).map sanitizeTx).length ∧
      r.summary.matchedTotal = matched.foldl (fun s p => s + p.bankTransaction.amount) 0 ∧
      r.summary.unmatchedBankTotal =
        ((raw.unmatchedBankTransactions.getD []).map sanitizeTx).foldl
          (fun s t => s + t.amount) 0 ∧
      r.summary.unmatchedLedgerTotal =
        ((raw.unmatchedLedgerEntries.getD []).map sanitizeTx).foldl
          (fun s t => s + t.amount) 0 := by
  unfold sanitize at h
  cases hm : sanitizePairs (raw.matchedTransactions.getD []) with
  | error e => rw [hm] at h; exact Except.noConfusion h
  | ok matched =>
    rw [hm] at h
    simp only [Except.ok.injEq] at h
    subst h
    exact ⟨matched, rfl, rfl, rfl, rfl, rfl, rfl, rfl, rfl, rfl, rfl, rfl, rfl, rfl⟩

theorem sanitize_isOk_iff (raw : RawResult) :
    isOk (sanitize raw) = isOk (sanitizePairs (raw.matchedTransactions.getD [])) := by
  unfold sanitize
  cases hm : sanitizePairs (raw.matchedTransactions.getD []) <;> simp [isOk]

theorem forall₂_mem_right {α β : Type} {R : α → β → Prop} :
    ∀ {l₁ : List α} {l₂ : List β}, List.Forall₂ R l₁ l₂ → ∀ b ∈ l₂, ∃ a ∈ l₁, R a b := by
  intro l₁ l₂ h
  induction h with
  | nil => intro b hb; cases hb
  | cons hrel _ ih =>
    intro b hb
    rcases List.mem_cons.mp hb with hb | hb
    · subst hb; exact ⟨_, List.mem_cons_self _ _, hrel⟩
    · rcases ih b hb with ⟨a, ha, hr⟩
      exact ⟨a, List.mem_cons_of_mem _ ha, hr⟩

theorem parseAmount_eq_abs (v : Option ℚ) : parseAmount v = |v.getD 0| := absQ_eq_abs _

theorem parseAmount_nonneg (v : Option ℚ) : 0 ≤ parseAmount v := by
  rw [parseAmount_eq_abs]; exact abs_nonneg _

/-! Claim C1: the recomputed summary. -/

/-- A raw input whose single matched pair has a bank amount of 10 and a ledger
amount of -7, so the two legs disagree after coercion. -/
def demoRawC1 : RawResult :=
  ⟨some ⟨some 100, some 100, some "2024-03-31"⟩,
   some [⟨some ⟨some "d1", some "Acme", some 10, some "credit"⟩,
          some ⟨some "d1", some "Acme Corp", some (-7), some "debit"⟩⟩],
   some [], some []⟩

/-- C1: for every raw input accepted by the sanitizer, the summary's three
counts equal the lengths of the three sanitized collections, `matchedTotal`
is exactly the sum of the bank legs' coerced amounts (the demo input, whose
legs disagree, yields the bank sum 10, not the ledger sum 7), and the two
unmatched totals are exactly the sums of the amounts of their sanitized
collections. -/
theorem sanitize_summary_recomputation :
    (∀ (raw : RawResult) (r : ReconciliationResult), sanitize raw = .ok r →
      r.summary.matchedCount = r.matchedTransactions.length ∧
      r.summary.unmatchedBankCount = r.unmatchedBankTransactions.length ∧
      r.summary.unmatchedLedgerCount = r.unmatchedLedgerEntries.length ∧
      r.summary.matchedTotal = (r.matchedTransactions.map (·.bankTransaction.amount)).sum ∧
      r.summary.unmatchedBankTotal = (r.unmatchedBankTransactions.map (·.amount)).sum ∧
      r.summary.unmatchedLedgerTotal = (r.unmatchedLedgerEntries.map (·.amount)).sum) ∧
    (sanitize demoRawC1).map (·.summary.matchedTotal) = .ok 10 ∧
    (sanitize demoRawC1).map
      (fun r => (r.matchedTransactions.map (·.ledgerTransaction.amount)).sum) = .ok 7 := by
  refine ⟨?_, ?_, ?_⟩
  · intro raw r h
    rcases sanitize_ok_elim h with ⟨matched, _, h1, h2, h3, _, _, _, h4, h5, h6, h7, h8, h9⟩
    refine ⟨?_, ?_, ?_, ?_, ?_, ?_⟩
    · rw [h4, h1]
    · rw [h5, h2]
    · rw [h6, h3]
    · rw [h7, h1]; simp [foldl_add_map]
    · rw [h8, h2]; simp [foldl_add_map]
    · rw [h9, h3]; simp [foldl_add_map]
  · norm_num [demoRawC1, sanitize, sanitizePairs, sanitizePair, sanitizeTx, parseAmount,
      absQ, Except.map]
  · norm_num [demoRawC1, sanitize, sanitizePairs, sanitizePair, sanitizeTx, parseAmount,
      absQ, Except.map]

/-- The sanitized form of `demoRawC1`. -/
def demoOutC1 : ReconciliationResult :=
  ⟨⟨some 100, some 100, some "2024-03-31", 1, 0, 0, 10, 0, 0⟩,
   [⟨⟨some "d1", some "Acme", 10, some "credit"⟩,
     ⟨some "d1", some "Acme Corp", 7, some "debit"⟩⟩],
   [], []⟩

/-- Witness for C1: the universal part applied at the concrete demo input. -/
theorem sanitize_summary_recomputation_witness :
    sanitize demoRawC1 = .ok demoOutC1 ∧
      demoOutC1.summary.matchedCount = demoOutC1.matchedTransactions.length ∧
      demoOutC1.summary.matchedTotal =
        (demoOutC1.matchedTransactions.map (·.bankTransaction.amount)).sum := by
  have hok : sanitize demoRawC1 = .ok demoOutC1 := by
    norm_num [demoRawC1, demoOutC1, sanitize, sanitizePairs, sanitizePair, sanitizeTx,
      parseAmount, absQ]
  obtain ⟨h1, _, _, h4, _, _⟩ := sanitize_summary_recomputation.1 demoRawC1 demoOutC1 hok
  exact ⟨hok, h1, h4⟩

/-! Claim C2: sanitization never raises (corrected: a missing sub-object in a
matched pair does raise, and the error is escalated to the caller). -/

/-- A raw response whose single matched pair lacks its `bankTransaction`. -/
def rawMissingLegC2 : RawResult :=
  ⟨some ⟨some 100, some 100, some "d"⟩,
   some [⟨none, some ⟨some "d", some "x", some 5, some "debit"⟩⟩],
   some [], some []⟩

/-- C2 counterexample: on a successfully parsed response whose matched pair
lacks its `bankTransaction` sub-object, the sanitization step raises
(`p.bankTransaction.amount` on `undefined`) and the error is escalated to the
caller as a reconciliation failure, contradicting the claim that such
malformations are always recovered locally. -/
theorem sanitize_error_on_missing_leg :
    sanitize rawMissingLegC2 =
      .error "Reconciliation failed: TypeError: cannot read amount of undefined" := rfl

/-- C2 amended: a missing or non-numeric `amount` is recovered by default
coercion, but a matched pair missing its `bankTransaction` or
`ledgerTransaction` sub-object makes the sanitization step raise, escalated to
the caller; sanitization succeeds exactly when every matched pair carries both
sub-objects. -/
theorem sanitize_ok_iff_pairs_wellformed :
    ∀ raw : RawResult,
      isOk (sanitize raw) = true ↔
        ∀ p ∈ raw.matchedTransactions.getD [],
          p.bankTransaction.isSome = true ∧ p.ledgerTransaction.isSome = true := by
  intro raw
  rw [sanitize_isOk_iff]
  exact sanitizePairs_isOk_iff _

/-- A raw response whose matched pair has both sub-objects but a missing
bank amount and a non-numeric (hence `none`) ledger amount. -/
def rawWellformedC2 : RawResult :=
  ⟨none, some [⟨some ⟨none, none, none, none⟩, some ⟨none, none, none, none⟩⟩], none, none⟩

/-- Witness for the amended C2: the equivalence applied at a concrete input
whose pair has both legs (with malformed amounts), which sanitizes fine. -/
theorem sanitize_ok_iff_pairs_wellformed_witness :
    isOk (sanitize rawWellformedC2) = true := by
  refine (sanitize_ok_iff_pairs_wellformed rawWellformedC2).mpr ?_
  intro p hp
  simp only [rawWellformedC2, Option.getD_some, List.mem_singleton] at hp
  subst hp
  exact ⟨rfl, rfl⟩

/-! Claim C7: absent top-level collections (corrected: the absent collections
are indeed treated as empty, but the sanitizer can still raise on such an
input when a present matched pair is missing a sub-object). -/

/-- A raw response with three of the four top-level fields absent whose
present `matchedTransactions` holds a pair with both sub-objects absent. -/
def rawAbsentCollsC7 : RawResult := ⟨none, some [⟨none, none⟩], none, none⟩

/-- C7 counterexample: an input with absent top-level collections
(`summary`, `unmatchedBankTransactions`, `unmatchedLedgerEntries` all absent)
on which the sanitizer nevertheless raises, because the present matched pair
is missing its sub-objects. -/
theorem sanitize_absent_collections_may_raise :
    rawAbsentCollsC7.summary = none ∧
    rawAbsentCollsC7.unmatchedBankTransactions = none ∧
    rawAbsentCollsC7.unmatchedLedgerEntries = none ∧
    sanitize rawAbsentCollsC7 =
      .error "Reconciliation failed: TypeError: cannot read amount of undefined" :=
  ⟨rfl, rfl, rfl, rfl⟩

/-- C7 amended: each absent top-level collection is treated as the empty
sequence (and an absent summary yields unset pass-through fields), and the
sanitizer does not raise provided every present matched pair carries both
sub-objects. -/
theorem sanitize_absent_collections_empty :
    ∀ raw : RawResult,
      (∀ p ∈ raw.matchedTransactions.getD [],
        p.bankTransaction.isSome = true ∧ p.ledgerTransaction.isSome = true) →
      ∃ r, sanitize raw = .ok r ∧
        (raw.matchedTransactions = none → r.matchedTransactions = []) ∧
        (raw.unmatchedBankTransactions = none → r.unmatchedBankTransactions = []) ∧
        (raw.unmatchedLedgerEntries = none → r.unmatchedLedgerEntries = []) ∧
        (raw.summary = none → r.summary.ledgerBalance = none ∧
          r.summary.bankBalance = none ∧ r.summary.asAtDate = none) := by
  intro raw hwf
  have h1 : isOk (sanitizePairs (raw.matchedTransactions.getD [])) = true :=
    (sanitizePairs_isOk_iff _).mpr hwf
  have h2 : isOk (sanitize raw) = true := by rw [sanitize_isOk_iff]; exact h1
  obtain ⟨r, hr⟩ := (isOk_iff_exists _).mp h2
  rcases sanitize_ok_elim hr with ⟨matched, hm, hmt, hub, hul, hlb, hbb, had, _⟩
  refine ⟨r, hr, ?_, ?_, ?_, ?_⟩
  · intro hnone
    rw [hnone] at hm
    simp only [Option.getD_none, sanitizePairs, Except.ok.injEq] at hm
    rw [hmt, ← hm]
  · intro hnone; rw [hub, hnone]; rfl
  · intro hnone; rw [hul, hnone]; rfl
  · intro hnone
    exact ⟨by rw [hlb, hnone]; rfl, by rw [hbb, hnone]; rfl, by rw [had, hnone]; rfl⟩

/-- Witness for the amended C7: all four top-level fields absent. -/
theorem sanitize_absent_collections_empty_witness :
    ∃ r, sanitize ⟨none, none, none, none⟩ = .ok r ∧ r.matchedTransactions = [] ∧
      r.unmatchedBankTransactions = [] ∧ r.unmatchedLedgerEntries = [] ∧
      r.summary.ledgerBalance = none := by
  obtain ⟨r, hok, hm, hb, hl, hs⟩ :=
    sanitize_absent_collections_empty ⟨none, none, none, none⟩ (by simp)
  exact ⟨r, hok, hm rfl, hb rfl, hl rfl, (hs rfl).1⟩

/-! Claim C4: uniform amount coercion. -/

/-- C4: for every raw input the sanitizer accepts, every sanitized amount —
in both legs of each matched pair and in both unmatched collections — equals
the absolute value of the raw amount's numeric coercion, with failed coercion
defaulting to 0 first; hence every sanitized amount is nonnegative. -/
theorem sanitize_amount_coercion :
    ∀ (raw : RawResult) (r : ReconciliationResult), sanitize raw = .ok r →
      (List.Forall₂ (fun (p : RawPair) (q : MatchedPair) =>
          (∀ b, p.bankTransaction = some b →
            q.bankTransaction.amount = |b.amount.getD 0|) ∧
          (∀ lt, p.ledgerTransaction = some lt →
            q.ledgerTransaction.amount = |lt.amount.getD 0|))
        (raw.matchedTransactions.getD []) r.matchedTransactions) ∧
      r.unmatchedBankTransactions.map (·.amount) =
        (raw.unmatchedBankTransactions.getD []).map (fun t => |t.amount.getD 0|) ∧
      r.unmatchedLedgerEntries.map (·.amount) =
        (raw.unmatchedLedgerEntries.getD []).map (fun t => |t.amount.getD 0|) ∧
      (∀ t ∈ r.unmatchedBankTransactions, 0 ≤ t.amount) ∧
      (∀ t ∈ r.unmatchedLedgerEntries, 0 ≤ t.amount) ∧
      (∀ p ∈ r.matchedTransactions,
        0 ≤ p.bankTransaction.amount ∧ 0 ≤ p.ledgerTransaction.amount) := by
  intro raw r h
  rcases sanitize_ok_elim h with ⟨matched, hm, h1, h2, h3, _⟩
  have hf := sanitizePairs_ok_forall₂ hm
  refine ⟨?_, ?_, ?_, ?_, ?_, ?_⟩
  · rw [h1]
    refine hf.imp ?_
    rintro p q ⟨b, lt, hb, hl, hq⟩
    subst hq
    constructor
    · intro b' hb'
      rw [hb] at hb'
      cases hb'
      exact parseAmount_eq_abs _
    · intro lt' hl'
      rw [hl] at hl'
      cases hl'
      exact parseAmount_eq_abs _
  · rw [h2, List.map_map]
    refine List.map_congr_left ?_
    intro t _
    exact parseAmount_eq_abs _
  · rw [h3, List.map_map]
    refine List.map_congr_left ?_
    intro t _
    exact parseAmount_eq_abs _
  · intro t ht
    rw [h2] at ht
    rcases List.mem_map.mp ht with ⟨t₀, _, rfl⟩
    exact parseAmount_nonneg _
  · intro t ht
    rw [h3] at ht
    rcases List.mem_map.mp ht with ⟨t₀, _, rfl⟩
    exact parseAmount_nonneg _
  · intro p hp
    rw [h1] at hp
    rcases forall₂_mem_right hf p hp with ⟨praw, _, b, lt, _, _, hq⟩
    subst hq
    exact ⟨parseAmount_nonneg _, parseAmount_nonneg _⟩

/-- A raw input exercising the coercion in all four transaction positions:
a missing bank amount, a negative ledger amount, a negative unmatched bank
amount and a missing unmatched ledger amount. -/
def demoRawC4 : RawResult :=
  ⟨none,
   some [⟨some ⟨none, none, none, none⟩, some ⟨none, none, some (-3), none⟩⟩],
   some [⟨none, none, some (-25), none⟩],
   some [⟨none, none, none, none⟩]⟩

/-- The sanitized form of `demoRawC4`. -/
def demoOutC4 : ReconciliationResult :=
  ⟨⟨none, none, none, 1, 1, 1, 0, 25, 0⟩,
   [⟨⟨none, none, 0, none⟩, ⟨none, none, 3, none⟩⟩],
   [⟨none, none, 25, none⟩],
   [⟨none, none, 0, none⟩]⟩

/-- Witness for C4: the theorem applied at the concrete demo input. -/
theorem sanitize_amount_coercion_witness :
    sanitize demoRawC4 = .ok demoOutC4 ∧
      0 ≤ (Transaction.mk none none 25 none).amount := by
  have hok : sanitize demoRawC4 = .ok demoOutC4 := by
    norm_num [demoRawC4, demoOutC4, sanitize, sanitizePairs, sanitizePair, sanitizeTx,
      parseAmount, absQ]
  refine ⟨hok, ?_⟩
  refine (sanitize_amount_coercion demoRawC4 demoOutC4 hok).2.2.2.1 _ ?_
  simp [demoOutC4]

/-! Claim C10: sanitization alters only the amounts. -/

/-- C10: for every raw input the sanitizer accepts, each output collection
has the same length and element order as its raw counterpart, every field
other than `amount` (`date`, `description`, `type`) is copied through
unchanged — in both legs of each matched pair and in both unmatched
collections — and the summary's `ledgerBalance`, `bankBalance` and `asAtDate`
are passed through from the raw summary. -/
theorem sanitize_frame :
    ∀ (raw : RawResult) (r : ReconciliationResult), sanitize raw = .ok r →
      r.matchedTransactions.length = (raw.matchedTransactions.getD []).length ∧
      r.unmatchedBankTransactions.length =
        (raw.unmatchedBankTransactions.getD []).length ∧
      r.unmatchedLedgerEntries.length = (raw.unmatchedLedgerEntries.getD []).length ∧
      r.unmatchedBankTransactions.map (·.date) =
        (raw.unmatchedBankTransactions.getD []).map (·.date) ∧
      r.unmatchedBankTransactions.map (·.description) =
        (raw.unmatchedBankTransactions.getD []).map (·.description) ∧
      r.unmatchedBankTransactions.map (·.type) =
        (raw.unmatchedBankTransactions.getD []).map (·.type) ∧
      r.unmatchedLedgerEntries.map (·.date) =
        (raw.unmatchedLedgerEntries.getD []).map (·.date) ∧
      r.unmatchedLedgerEntries.map (·.description) =
        (raw.unmatchedLedgerEntries.getD []).map (·.description) ∧
      r.unmatchedLedgerEntries.map (·.type) =
        (raw.unmatchedLedgerEntries.getD []).map (·.type) ∧
      (List.Forall₂ (fun (p : RawPair) (q : MatchedPair) =>
          ∃ b lt, p.bankTransaction = some b ∧ p.ledgerTransaction = some lt ∧
            q.bankTransaction.date = b.date ∧
            q.bankTransaction.description = b.description ∧
            q.bankTransaction.type = b.type ∧
            q.ledgerTransaction.date = lt.date ∧
            q.ledgerTransaction.description = lt.description ∧
            q.ledgerTransaction.type = lt.type)
        (raw.matchedTransactions.getD []) r.matchedTransactions) ∧
      r.summary.ledgerBalance = raw.summary.bind (·.ledgerBalance) ∧
      r.summary.bankBalance = raw.summary.bind (·.bankBalance) ∧
      r.summary.asAtDate = raw.summary.bind (·.asAtDate) := by
  intro raw r h
  rcases sanitize_ok_elim h with ⟨matched, hm, h1, h2, h3, hlb, hbb, had, _⟩
  have hf := sanitizePairs_ok_forall₂ hm
  refine ⟨?_, ?_, ?_, ?_, ?_, ?_, ?_, ?_, ?_, ?_, hlb, hbb, had⟩
  · rw [h1]; exact hf.length_eq.symm
  · rw [h2, List.length_map]
  · rw [h3, List.length_map]
  · rw [h2, List.map_map]; exact List.map_congr_left fun t _ => rfl
  · rw [h2, List.map_map]; exact List.map_congr_left fun t _ => rfl
  · rw [h2, List.map_map]; exact List.map_congr_left fun t _ => rfl
  · rw [h3, List.map_map]; exact List.map_congr_left fun t _ => rfl
  · rw [h3, List.map_map]; exact List.map_congr_left fun t _ => rfl
  · rw [h3, List.map_map]; exact List.map_congr_left fun t _ => rfl
  · rw [h1]
    refine hf.imp ?_
    rintro p q ⟨b, lt, hb, hl, hq⟩
    subst hq
    exact ⟨b, lt, hb, hl, rfl, rfl, rfl, rfl, rfl, rfl⟩

/-- A raw input with distinctive non-amount fields in all four positions. -/
def demoRawC10 : RawResult :=
  ⟨some ⟨some 55, some 66, some "2024-01-31"⟩,
   some [⟨some ⟨some "a", some "b", some 1, some "credit"⟩,
          some ⟨some "c", some "d", some 2, some "debit"⟩⟩],
   some [⟨some "e", some "f", some 3, some "credit"⟩],
   some [⟨some "g", some "h", some 4, some "debit"⟩]⟩

/-- The sanitized form of `demoRawC10`. -/
def demoOutC10 : ReconciliationResult :=
  ⟨⟨some 55, some 66, some "2024-01-31", 1, 1, 1, 1, 3, 4⟩,
   [⟨⟨some "a", some "b", 1, some "credit"⟩, ⟨some "c", some "d", 2, some "debit"⟩⟩],
   [⟨some "e", some "f", 3, some "credit"⟩],
   [⟨some "g", some "h", 4, some "debit"⟩]⟩

/-- Witness for C10: the theorem applied at the concrete demo input. -/
theorem sanitize_frame_witness :
    sanitize demoRawC10 = .ok demoOutC10 ∧
      demoOutC10.unmatchedBankTransactions.map (·.description) =
        (demoRawC10.unmatchedBankTransactions.getD []).map (·.description) ∧
      demoOutC10.summary.asAtDate = demoRawC10.summary.bind (·.asAtDate) := by
  have hok : sanitize demoRawC10 = .ok demoOutC10 := by
    norm_num [demoRawC10, demoOutC10, sanitize, sanitizePairs, sanitizePair, sanitizeTx,
      parseAmount, absQ]
  obtain ⟨_, _, _, _, h5, _, _, _, _, _, _, _, h13⟩ :=
    sanitize_frame demoRawC10 demoOutC10 hok
  exact ⟨hok, h5, h13⟩

/-! Claim C3: select-all over an unmatched collection (corrected: the guard
compares the selection's size with the number of visible indices, not the two
sets). -/

/-- C3 counterexample: with current selection `{5}` and visible indices `[0]`,
the selection set does not equal the visible set, so the claim requires the
result to be `{0}`; the handler instead clears the selection because the
sizes agree. -/
theorem selectAllVisible_size_counterexample :
    selectAllVisible {5} [0] = ∅ ∧
    ({5} : Finset ℕ) ≠ ({0} : Finset ℕ) ∧
    (∅ : Finset ℕ) ≠ ({0} : Finset ℕ) := by
  refine ⟨?_, by decide, by decide⟩
  rw [selectAllVisible, if_pos]
  exact ⟨by decide, by decide⟩

/-- C3 amended: the handler clears the selection when its size equals the
number of currently visible indices and at least one index is visible, and
otherwise sets it to exactly the visible indices; since the visible indices
are distinct by construction, a selection equal to the visible set is still
cleared, and calling the handler twice on an initially empty selection with
the same visible indices yields the empty selection again. -/
theorem selectAllVisible_toggle :
    (∀ (selected : Finset ℕ) (visible : List ℕ), selected.card ≠ visible.length →
      selectAllVisible selected visible = visible.toFinset) ∧
    (∀ selected : Finset ℕ, selectAllVisible selected [] = ∅) ∧
    (∀ visible : List ℕ, visible.Nodup → 0 < visible.length →
      selectAllVisible visible.toFinset visible = ∅) ∧
    (∀ visible : List ℕ, visible.Nodup →
      selectAllVisible (selectAllVisible ∅ visible) visible = ∅) := by
  have hclear : ∀ visible : List ℕ, visible.Nodup → 0 < visible.length →
      selectAllVisible visible.toFinset visible = ∅ := by
    intro visible hnd hpos
    rw [selectAllVisible, if_pos]
    exact ⟨List.toFinset_card_of_nodup hnd, hpos⟩
  have hset : ∀ (selected : Finset ℕ) (visible : List ℕ),
      selected.card ≠ visible.length →
      selectAllVisible selected visible = visible.toFinset := by
    intro selected visible hne
    rw [selectAllVisible, if_neg]
    intro hc
    exact hne hc.1
  refine ⟨hset, ?_, hclear, ?_⟩
  · intro selected
    rw [selectAllVisible, if_neg]
    · rfl
    · intro hc
      exact absurd hc.2 (by simp)
  · intro visible hnd
    rcases Nat.eq_zero_or_pos visible.length with hz | hpos
    · rw [List.length_eq_zero.mp hz]
      have h0 : selectAllVisible ∅ ([] : List ℕ) = ∅ := by
        rw [selectAllVisible, if_neg]
        · rfl
        · intro hc
          exact absurd hc.2 (by simp)
      rw [h0]
      exact h0
    · rw [hset ∅ visible (by simp; omega)]
      exact hclear visible hnd hpos

/-- Witness for the amended C3: toggling twice from the empty selection with
visible indices `[0, 1]` is empty again, and a size mismatch selects all
visible indices. -/
theorem selectAllVisible_toggle_witness :
    selectAllVisible (selectAllVisible ∅ [0, 1]) [0, 1] = ∅ ∧
    selectAllVisible ∅ [2, 7] = List.toFinset [2, 7] :=
  ⟨selectAllVisible_toggle.2.2.2 [0, 1] (by decide),
   selectAllVisible_toggle.1 ∅ [2, 7] (by decide)⟩

/-! Claim C5: `applyBulkStatus`. -/

theorem foldl_bulkStep (s : BulkStatus) :
    ∀ (sel : List ℕ) (m : StatusMap) (j : ℕ),
      sel.foldl (bulkStep s) m j =
        if j ∈ sel then (if s = .defaultStatus then none else s.toTag) else m j := by
  intro sel
  induction sel with
  | nil => intro m j; simp
  | cons i rest ih =>
    intro m j
    simp only [List.foldl_cons, List.mem_cons]
    rw [ih]
    by_cases hj : j ∈ rest
    · simp [hj]
    · by_cases hji : j = i
      · simp [hj, hji, bulkStep]
      · simp [hj, hji, bulkStep]

/-- C5: `applyBulkStatus` maps every selected index to the new status (or
removes its entry when the status is the default), leaves every other index
untouched, clears the selection set, and — the whole update being a single
map — applying `cleared` to `{i1, i2}` and then `default` to `{i1, i2}`
leaves a map with an entry at neither index. -/
theorem applyBulkStatus_spec :
    (∀ (m : StatusMap) (sel : List ℕ) (s : BulkStatus),
      ((applyBulkStatus m sel s).1 = fun j =>
        if j ∈ sel then (if s = .defaultStatus then none else s.toTag) else m j) ∧
      (applyBulkStatus m sel s).2 = ∅) ∧
    (∀ (m : StatusMap) (i1 i2 : ℕ),
      (applyBulkStatus m [i1, i2] .cleared).1 i1 = some .cleared ∧
      (applyBulkStatus m [i1, i2] .cleared).1 i2 = some .cleared ∧
      (applyBulkStatus (applyBulkStatus m [i1, i2] .cleared).1 [i1, i2]
        .defaultStatus).1 i1 = none ∧
      (applyBulkStatus (applyBulkStatus m [i1, i2] .cleared).1 [i1, i2]
        .defaultStatus).1 i2 = none) := by
  have hchar : ∀ (m : StatusMap) (sel : List ℕ) (s : BulkStatus) (j : ℕ),
      (applyBulkStatus m sel s).1 j =
        if j ∈ sel then (if s = .defaultStatus then none else s.toTag) else m j :=
    fun m sel s j => foldl_bulkStep s sel m j
  refine ⟨fun m sel s => ⟨funext (hchar m sel s), rfl⟩, ?_⟩
  intro m i1 i2
  refine ⟨?_, ?_, ?_, ?_⟩ <;> rw [hchar] <;> simp [BulkStatus.toTag]

/-! Claim C8: `topUnmatched`. -/

theorem leAmount_trans : ∀ a b c : Transaction, leAmount a b → leAmount b c → leAmount a c := by
  intro a b c hab hbc
  simp only [leAmount, decide_eq_true_eq] at *
  exact le_trans hbc hab

theorem leAmount_total : ∀ a b : Transaction, leAmount a b || leAmount b a := by
  intro a b
  simp only [leAmount]
  rcases le_total a.amount b.amount with h | h <;> simp [h]

/-- C8: `topUnmatched` returns a descending-by-amount list drawn from the
concatenation of the two unmatched collections: it is the 5-element prefix of
a stable sort of `bank ++ ledger` (a permutation of it, with items of equal
amount keeping their relative concatenated order), its length is
`min 5 (total)`, and when at most 5 unmatched items exist it is a permutation
of all of them. -/
theorem topUnmatched_spec :
    (∀ bank ledger : List Transaction,
      List.Pairwise (fun a b => b.amount ≤ a.amount) (topUnmatched bank ledger)) ∧
    (∀ bank ledger : List Transaction,
      (topUnmatched bank ledger).length = min 5 (bank.length + ledger.length)) ∧
    (∀ (bank ledger : List Transaction) (x : Transaction),
      x ∈ topUnmatched bank ledger → x ∈ bank ++ ledger) ∧
    (∀ bank ledger : List Transaction, ∃ rest,
      (bank ++ ledger).mergeSort leAmount = topUnmatched bank ledger ++ rest ∧
      List.Perm (topUnmatched bank ledger ++ rest) (bank ++ ledger)) ∧
    (∀ bank ledger : List Transaction, bank.length + ledger.length ≤ 5 →
      List.Perm (topUnmatched bank ledger) (bank ++ ledger)) ∧
    (∀ (bank ledger : List Transaction) (a b : Transaction), a.amount = b.amount →
      List.Sublist [a, b] (bank ++ ledger) →
      List.Sublist [a, b] ((bank ++ ledger).mergeSort leAmount)) := by
  refine ⟨?_, ?_, ?_, ?_, ?_, ?_⟩
  · intro bank ledger
    have hs := List.sorted_mergeSort leAmount_trans leAmount_total (bank ++ ledger)
    have hs' : List.Pairwise (fun a b : Transaction => b.amount ≤ a.amount)
        ((bank ++ ledger).mergeSort leAmount) := by
      refine hs.imp ?_
      intro a b hab
      simpa [leAmount] using hab
    exact hs'.sublist (List.take_sublist 5 _)
  · intro bank ledger
    rw [topUnmatched, List.length_take, List.length_mergeSort, List.length_append]
  · intro bank ledger x hx
    have hx' : x ∈ (bank ++ ledger).mergeSort leAmount :=
      (List.take_sublist 5 _).mem hx
    exact List.mem_mergeSort.mp hx'
  · intro bank ledger
    refine ⟨((bank ++ ledger).mergeSort leAmount).drop 5, ?_, ?_⟩
    · rw [topUnmatched, List.take_append_drop]
    · rw [topUnmatched, List.take_append_drop]
      exact List.mergeSort_perm _ _
  · intro bank ledger h
    rw [topUnmatched, List.take_of_length_le]
    · exact List.mergeSort_perm _ _
    · rw [List.length_mergeSort, List.length_append]
      exact h
  · intro bank ledger a b hab hsub
    refine List.pair_sublist_mergeSort leAmount_trans leAmount_total ?_ hsub
    simp [leAmount, hab.ge]

/-- Witness for C8: with one bank and one ledger transaction the top-outliers
list is a permutation of both, and ties keep their concatenated order. -/
theorem topUnmatched_spec_witness :
    List.Perm (topUnmatched [Transaction.mk none none 1 none] [Transaction.mk none none 2 none])
      ([Transaction.mk none none 1 none] ++ [Transaction.mk none none 2 none]) :=
  topUnmatched_spec.2.2.2.2.1 _ _ (by decide)

/-! Claim C9: the dashboard variance classification. -/

/-- C9: the dashboard computes `bankBalance - ledgerBalance` and reports
balanced exactly when the absolute variance is below `0.01`; in particular
`5000` vs `5000.005` is balanced and `5000` vs `4999.98` is out of balance. -/
theorem variance_classification :
    (∀ b l : ℚ, isBalanced b l = true ↔ |totalVariance b l| < 1 / 100) ∧
    isBalanced 5000 (5000 + 1 / 200) = true ∧
    isBalanced 5000 (4999 + 49 / 50) = false := by
  refine ⟨?_, ?_, ?_⟩
  · intro b l
    simp [isBalanced, totalVariance, absQ_eq_abs]
  · simp only [isBalanced, decide_eq_true_eq, absQ_eq_abs]
    rw [abs_lt]
    constructor <;> norm_num
  · simp only [isBalanced, decide_eq_false_iff_not, absQ_eq_abs]
    rw [not_lt, le_abs]
    left
    norm_num

/-- Witness for C9: the characterization applied at the first concrete pair. -/
theorem variance_classification_witness :
    |totalVariance 5000 (5000 + 1 / 200)| < 1 / 100 :=
  (variance_classification.1 5000 (5000 + 1 / 200)).mp variance_classification.2.1

/-! Claim C6: the structured document export. -/

theorem selectByIndex_sublist (S : Finset ℕ) (l : List Transaction) :
    List.Sublist (selectByIndex S l) l := by
  unfold selectByIndex
  have h1 : List.Sublist (l.enum.filter (fun p => decide (p.1 ∈ S))) l.enum :=
    List.filter_sublist _
  have h2 := h1.map Prod.snd
  rw [List.enum_eq_enumFrom, List.enumFrom_map_snd] at h2
  exact h2

theorem mem_selectByIndex_of_mem (S : Finset ℕ) (l : List Transaction) (i : ℕ)
    (h : i < l.length) (hS : i ∈ S) : l[i] ∈ selectByIndex S l := by
  unfold selectByIndex
  refine List.mem_map.mpr ⟨(i, l[i]), ?_, rfl⟩
  refine List.mem_filter.mpr ⟨?_, by simpa using hS⟩
  have hlen : i < l.enum.length := by
    simpa [List.enum_eq_enumFrom, List.enumFrom_length] using h
  have heq : l.enum.get ⟨i, hlen⟩ = (i, l[i]) := by
    simp [List.enum_eq_enumFrom]
  rw [← heq]
  exact List.get_mem _ _ hlen

/-- The two unmatched bank items of the C6 scenario. -/
def txAC6 : Transaction := ⟨some "d1", some "fee", 25, some "debit"⟩

/-- The second unmatched bank item of the C6 scenario. -/
def txBC6 : Transaction := ⟨some "d2", some "chk", 40, some "debit"⟩

/-- A result with one matched pair, two unmatched bank items and one
unmatched ledger entry. -/
def resultC6 : ReconciliationResult :=
  ⟨⟨some 1, some 2, some "2024-03-31", 1, 2, 1, 9, 65, 4⟩,
   [⟨⟨some "m", some "m", 9, some "credit"⟩, ⟨some "m", some "m", 9, some "debit"⟩⟩],
   [txAC6, txBC6],
   [⟨some "l", some "l", 4, some "credit"⟩]⟩

/-- The C6 export configuration: summary and unmatched bank only, selected
items only. -/
def configC6 : PdfExportConfig := ⟨true, false, true, false, true⟩

/-- C6: in the document export, an unmatched bank section emitted under
`onlySelectedItems` with a passed selection holds exactly the transactions
whose positional index in the full unmatched collection is selected (a
sublist of the full collection containing each selected position), a matches
section always holds the full matched collection, an emitted unmatched
section is never empty, and the concrete scenario (summary and unmatched-bank
only, selection `{0}` over two bank items) yields exactly the summary section
and a one-row bank section titled `3. Unmatched Bank Items (1) [Filtered]`,
with no matches or ledger section. -/
theorem generatePdf_sections :
    (∀ (result : ReconciliationResult) (config : PdfExportConfig)
        (selB selL : Option (Finset ℕ)) (title : String) (rows : List MatchedPair),
      DocSection.matchesSec title rows ∈ generatePdf result config selB selL →
        rows = result.matchedTransactions) ∧
    (∀ (result : ReconciliationResult) (config : PdfExportConfig)
        (selB selL : Option (Finset ℕ)) (title : String) (rows : List Transaction),
      DocSection.unmatchedBankSec title rows ∈ generatePdf result config selB selL →
        rows ≠ []) ∧
    (∀ (result : ReconciliationResult) (config : PdfExportConfig)
        (selB selL : Option (Finset ℕ)) (title : String) (rows : List Transaction),
      DocSection.unmatchedLedgerSec title rows ∈ generatePdf result config selB selL →
        rows ≠ []) ∧
    (∀ (result : ReconciliationResult) (config : PdfExportConfig) (S : Finset ℕ)
        (selL : Option (Finset ℕ)) (title : String) (rows : List Transaction),
      config.onlySelectedItems = true →
      DocSection.unmatchedBankSec title rows ∈ generatePdf result config (some S) selL →
        rows = selectByIndex S result.unmatchedBankTransactions ∧
        List.Sublist rows result.unmatchedBankTransactions ∧
        (∀ i : ℕ, ∀ h : i < result.unmatchedBankTransactions.length, i ∈ S →
          result.unmatchedBankTransactions[i] ∈ rows) ∧
        title = "3. Unmatched Bank Items (" ++ toString rows.length ++ ")" ++
          " [Filtered]") ∧
    (∀ (result : ReconciliationResult) (config : PdfExportConfig) (S : Finset ℕ)
        (selB : Option (Finset ℕ)) (title : String) (rows : List Transaction),
      config.onlySelectedItems = true →
      DocSection.unmatchedLedgerSec title rows ∈ generatePdf result config selB (some S) →
        rows = selectByIndex S result.unmatchedLedgerEntries ∧
        title = "4. Unmatched Ledger Entries (" ++ toString rows.length ++ ")" ++
          " [Filtered]") ∧
    generatePdf resultC6 configC6 (some {0}) (some ∅) =
      [DocSection.summarySec "1. Executive Summary" resultC6.summary,
       DocSection.unmatchedBankSec "3. Unmatched Bank Items (1) [Filtered]" [txAC6]] := by
  refine ⟨?_, ?_, ?_, ?_, ?_, ?_⟩
  · intro result config selB selL title rows hmem
    unfold generatePdf at hmem
    simp only [List.mem_append] at hmem
    rcases hmem with ((h | h) | h) | h
    · unfold summarySection at h
      split at h <;> simp at h
    · unfold matchesSection at h
      split at h
      · simp only [List.mem_singleton, DocSection.matchesSec.injEq] at h
        exact h.2
      · simp at h
    · unfold bankSection at h
      split at h
      · split at h <;> simp at h
      · simp at h
    · unfold ledgerSection at h
      split at h
      · split at h <;> simp at h
      · simp at h
  · intro result config selB selL title rows hmem
    unfold generatePdf at hmem
    simp only [List.mem_append] at hmem
    rcases hmem with ((h | h) | h) | h
    · unfold summarySection at h
      split at h <;> simp at h
    · unfold matchesSection at h
      split at h <;> simp at h
    · unfold bankSection at h
      split at h
      · split at h
        · rename_i hlen
          simp only [List.mem_singleton, DocSection.unmatchedBankSec.injEq] at h
          rw [← h.2] at hlen
          exact List.length_pos.mp hlen
        · simp at h
      · simp at h
    · unfold ledgerSection at h
      split at h
      · split at h <;> simp at h
      · simp at h
  · intro result config selB selL title rows hmem
    unfold generatePdf at hmem
    simp only [List.mem_append] at hmem
    rcases hmem with ((h | h) | h) | h
    · unfold summarySection at h
      split at h <;> simp at h
    · unfold matchesSection at h
      split at h <;> simp at h
    · unfold bankSection at h
      split at h
      · split at h <;> simp at h
      · simp at h
    · unfold ledgerSection at h
      split at h
      · split at h
        · rename_i hlen
          simp only [List.mem_singleton, DocSection.unmatchedLedgerSec.injEq] at h
          rw [← h.2] at hlen
          exact List.length_pos.mp hlen
        · simp at h
      · simp at h
  · intro result config S selL title rows hos hmem
    unfold generatePdf at hmem
    simp only [List.mem_append] at hmem
    have hrows : rows = selectByIndex S result.unmatchedBankTransactions ∧
        title = "3. Unmatched Bank Items (" ++ toString rows.length ++ ")" ++
          " [Filtered]" := by
      rcases hmem with ((h | h) | h) | h
      · unfold summarySection at h
        split at h <;> simp at h
      · unfold matchesSection at h
        split at h <;> simp at h
      · unfold bankSection at h
        split at h
        · split at h
          · simp only [List.mem_singleton, DocSection.unmatchedBankSec.injEq] at h
            rw [hos] at h
            simp only [filteredRows, if_pos] at h
            refine ⟨h.2, ?_⟩
            rw [h.2]
            exact h.1
          · simp at h
        · simp at h
      · unfold ledgerSection at h
        split at h
        · split at h <;> simp at h
        · simp at h
    refine ⟨hrows.1, ?_, ?_, hrows.2⟩
    · rw [hrows.1]
      exact selectByIndex_sublist _ _
    · intro i h hS
      rw [hrows.1]
      exact mem_selectByIndex_of_mem S _ i h hS
  · intro result config S selB title rows hos hmem
    unfold generatePdf at hmem
    simp only [List.mem_append] at hmem
    rcases hmem with ((h | h) | h) | h
    · unfold summarySection at h
      split at h <;> simp at h
    · unfold matchesSection at h
      split at h <;> simp at h
    · unfold bankSection at h
      split at h
      · split at h <;> simp at h
      · simp at h
    · unfold ledgerSection at h
      split at h
      · split at h
        · simp only [List.mem_singleton, DocSection.unmatchedLedgerSec.injEq] at h
          rw [hos] at h
          simp only [filteredRows, if_pos] at h
          refine ⟨h.2, ?_⟩
          rw [h.2]
          exact h.1
        · simp at h
      · simp at h
  · rfl

/-- Witness for C6: the bank-section characterization applied at the
concrete scenario, where the emitted rows are the selected item alone. -/
theorem generatePdf_sections_witness :
    [txAC6] = selectByIndex {0} resultC6.unmatchedBankTransactions ∧
      List.Sublist [txAC6] resultC6.unmatchedBankTransactions := by
  have h := generatePdf_sections.2.2.2.1 resultC6 configC6 {0} (some ∅)
    "3. Unmatched Bank Items (1) [Filtered]" [txAC6] rfl
    (by rw [generatePdf_sections.2.2.2.2.2]; simp)
  exact ⟨h.1, h.2.1⟩

end BankRec
